import Mathlib

/-!
Verification of the `detect-thermal` serverless handler
(`supabase/functions/detect-thermal/index.ts`).

The handler is embedded shallowly: every external collaborator outcome
(auth lookup, storage upload, AI HTTP status and JSON body, database
insert, signed-URL generation) is a field of an `Env` record, and the
handler is a pure function from `Env` and the inbound request to an HTTP
status, a response body, and the ordered trace of external calls it makes.

JSON numbers are modelled as exact decimal values `m / 10 ^ s`; every
numeric literal appearing in the source and in the claims is a small
decimal, so exactness matches the JavaScript values involved.
-/

namespace DetectThermal

/-- Exact decimal number `m / 10 ^ s` (JSON numeric values). -/
structure Dec where
  m : Int
  s : Nat
deriving DecidableEq, Repr

/-- Strip trailing zeros so that each decimal value has one representation. -/
def normDec : Int → Nat → Dec
  | m, 0 => ⟨m, 0⟩
  | m, s+1 => if m % 10 = 0 then normDec (m / 10) s else ⟨m, s+1⟩

/-- JSON values, as produced by `JSON.parse` and consumed by the handler. -/
inductive Json where
  | null
  | bool (b : Bool)
  | num (v : Dec)
  | str (s : String)
  | arr (elems : List Json)
  | obj (members : List (String × Json))

/-- First binding of a key in a JavaScript object. -/
def lookupKV : List (String × Json) → String → Option Json
  | [], _ => none
  | (k0, v) :: rest, k => if k0 = k then some v else lookupKV rest k

/-- JavaScript object update: a repeated key keeps its first position and
takes the later value (`JSON.parse` duplicate-key behaviour). -/
def insertKV : List (String × Json) → String → Json → List (String × Json)
  | [], k, v => [(k, v)]
  | (k0, v0) :: rest, k, v =>
    if k0 = k then (k0, v) :: rest else (k0, v0) :: insertKV rest k v

/-- JSON whitespace (`space`, `tab`, `line feed`, `carriage return`). -/
def isWsChar (c : Char) : Bool :=
  c = ' ' || c = '\t' || c = '\n' || c = '\r'

def skipWs (cs : List Char) : List Char :=
  cs.dropWhile isWsChar

def digitVal (c : Char) : Nat := c.toNat - '0'.toNat

def natOfDigits (ds : List Char) : Nat :=
  ds.foldl (fun acc c => 10 * acc + digitVal c) 0

/-- Assemble a parsed JSON number from its sign, integer part, fraction
digits and exponent. -/
def decOfParts (neg : Bool) (ip : Nat) (frac : List Char)
    (eneg : Bool) (emag : Nat) : Dec :=
  let m0 : Nat := ip * 10 ^ frac.length + natOfDigits frac
  let ms : Nat × Nat := if eneg then (m0, frac.length + emag) else (m0 * 10 ^ emag, frac.length)
  normDec (if neg then -(ms.1 : Int) else (ms.1 : Int)) ms.2

/-- Fraction part of a JSON number: `.` must be followed by digits. -/
def parseFrac (cs : List Char) : Option (List Char × List Char) :=
  match cs with
  | '.' :: r =>
    let fr := r.takeWhile Char.isDigit
    if fr = [] then none else some (fr, r.dropWhile Char.isDigit)
  | _ => some ([], cs)

/-- Exponent part of a JSON number. -/
def parseExp (cs : List Char) : Option (Bool × Nat × List Char) :=
  match cs with
  | [] => some (false, 0, [])
  | c :: r =>
    if c = 'e' || c = 'E' then
      let sr : Bool × List Char := match r with
        | '+' :: r2 => (false, r2)
        | '-' :: r2 => (true, r2)
        | _ => (false, r)
      let ds := sr.2.takeWhile Char.isDigit
      if ds = [] then none else some (sr.1, natOfDigits ds, sr.2.dropWhile Char.isDigit)
    else some (false, 0, c :: r)

/-- JSON number grammar: `-? int frac? exp?`, no leading zeros. -/
def parseNum (cs : List Char) : Option (Dec × List Char) :=
  let sg : Bool × List Char := match cs with
    | '-' :: r => (true, r)
    | _ => (false, cs)
  let ip := sg.2.takeWhile Char.isDigit
  if ip = [] then none
  else if 1 < ip.length ∧ ip.head? = some '0' then none
  else
    match parseFrac (sg.2.dropWhile Char.isDigit) with
    | none => none
    | some (fr, cs3) =>
      match parseExp cs3 with
      | none => none
      | some (en, em, cs4) => some (decOfParts sg.1 (natOfDigits ip) fr en em, cs4)

/-- One-character string escapes. -/
def escSimple (c : Char) : Option Char :=
  if c = '"' then some '"'
  else if c = '\\' then some '\\'
  else if c = '/' then some '/'
  else if c = 'b' then some (Char.ofNat 8)
  else if c = 'f' then some (Char.ofNat 12)
  else if c = 'n' then some '\n'
  else if c = 'r' then some '\r'
  else if c = 't' then some '\t'
  else none

def hexVal (c : Char) : Option Nat :=
  if c.isDigit then some (c.toNat - '0'.toNat)
  else if 'a' ≤ c ∧ c ≤ 'f' then some (c.toNat - 'a'.toNat + 10)
  else if 'A' ≤ c ∧ c ≤ 'F' then some (c.toNat - 'A'.toNat + 10)
  else none

/-- Parser modes: a value, the tail of an array, the tail of an object,
or the inside of a string literal. -/
inductive PMode where
  | val
  | elems (acc : List Json)
  | membs (acc : List (String × Json))
  | instr (acc : List Char)

/-- Recursive-descent JSON parser, fuel-indexed so that recursion is
structural and the kernel can evaluate it on concrete input. -/
def parseStep : Nat → PMode → List Char → Option (Json × List Char)
  | 0, _, _ => none
  | Nat.succ fuel, PMode.val, cs =>
    match cs with
    | [] => none
    | c :: r =>
      if c = '{' then
        match skipWs r with
        | [] => none
        | c2 :: r2 =>
          if c2 = '}' then some (Json.obj [], r2)
          else parseStep fuel (PMode.membs []) (c2 :: r2)
      else if c = '[' then
        match skipWs r with
        | [] => none
        | c2 :: r2 =>
          if c2 = ']' then some (Json.arr [], r2)
          else parseStep fuel (PMode.elems []) (c2 :: r2)
      else if c = '"' then parseStep fuel (PMode.instr []) r
      else if c = 't' then
        match r with
        | 'r' :: 'u' :: 'e' :: r2 => some (Json.bool true, r2)
        | _ => none
      else if c = 'f' then
        match r with
        | 'a' :: 'l' :: 's' :: 'e' :: r2 => some (Json.bool false, r2)
        | _ => none
      else if c = 'n' then
        match r with
        | 'u' :: 'l' :: 'l' :: r2 => some (Json.null, r2)
        | _ => none
      else
        match parseNum (c :: r) with
        | some (d, r2) => some (Json.num d, r2)
        | none => none
  | Nat.succ fuel, PMode.elems acc, cs =>
    match parseStep fuel PMode.val cs with
    | none => none
    | some (v, r) =>
      match skipWs r with
      | [] => none
      | c :: r2 =>
        if c = ',' then parseStep fuel (PMode.elems (acc ++ [v])) (skipWs r2)
        else if c = ']' then some (Json.arr (acc ++ [v]), r2)
        else none
  | Nat.succ fuel, PMode.membs acc, cs =>
    match cs with
    | [] => none
    | c :: r =>
      if c = '"' then
        match parseStep fuel (PMode.instr []) r with
        | some (Json.str k, r1) =>
          (match skipWs r1 with
           | [] => none
           | c1 :: r2 =>
             if c1 = ':' then
               match parseStep fuel PMode.val (skipWs r2) with
               | none => none
               | some (v, r3) =>
                 match skipWs r3 with
                 | [] => none
                 | c3 :: r4 =>
                   if c3 = ',' then parseStep fuel (PMode.membs (insertKV acc k v)) (skipWs r4)
                   else if c3 = '}' then some (Json.obj (insertKV acc k v), r4)
                   else none
             else none)
        | _ => none
      else none
  | Nat.succ fuel, PMode.instr acc, cs =>
    match cs with
    | [] => none
    | c :: r =>
      if c = '"' then some (Json.str (String.mk acc), r)
      else if c = '\\' then
        match r with
        | [] => none
        | e :: r2 =>
          if e = 'u' then
            match r2 with
            | a :: b :: c2 :: d :: r3 =>
              (match hexVal a, hexVal b, hexVal c2, hexVal d with
               | some ha, some hb, some hc, some hd =>
                 parseStep fuel (PMode.instr (acc ++ [Char.ofNat (((ha * 16 + hb) * 16 + hc) * 16 + hd)])) r3
               | _, _, _, _ => none)
            | _ => none
          else
            match escSimple e with
            | some ec => parseStep fuel (PMode.instr (acc ++ [ec])) r2
            | none => none
      else if c.toNat < 32 then none
      else parseStep fuel (PMode.instr (acc ++ [c])) r

/-- `JSON.parse`: a single JSON value, surrounded only by whitespace. -/
def jsonParse (s : String) : Option Json :=
  match parseStep (3 * s.data.length + 8) PMode.val (skipWs s.data) with
  | some (v, r) => if skipWs r = [] then some v else none
  | none => none

/-- First index of a character in a list. -/
def firstIdx (c : Char) : List Char → Option Nat
  | [] => none
  | x :: xs => if x = c then some 0 else (firstIdx c xs).map (· + 1)

/-- Last index of a character in a list. -/
def lastIdx (c : Char) (cs : List Char) : Option Nat :=
  match firstIdx c cs.reverse with
  | none => none
  | some k => some (cs.length - 1 - k)

/-- `content.match(/\[[\s\S]*\]/)`: the (greedy, leftmost) match runs from
the first `[` to the last `]`, when the latter comes after the former. -/
def bracketMatch (s : String) : Option String :=
  match firstIdx '[' s.data, lastIdx ']' s.data with
  | some i, some j =>
    if i < j then some (String.mk ((s.data.drop i).take (j - i + 1))) else none
  | _, _ => none

/-- `s.replace(pat, repl)` on strings: JavaScript replaces only the first
occurrence of a plain-string pattern. -/
def replOnceAux : List Char → List Char → List Char → List Char
  | [], _, _ => []
  | c :: rest, pat, repl =>
    if pat.isPrefixOf (c :: rest) then repl ++ (c :: rest).drop pat.length
    else c :: replOnceAux rest pat repl

def jsReplaceOnce (s pat repl : String) : String :=
  String.mk (replOnceAux s.data pat.data repl.data)

/-- A multipart form value: `FormData.get` yields a `File` or a string. -/
inductive FormValue where
  | file (name : String) (type : String)
  | str (s : String)

/-- The inbound HTTP request: method, `authorization` header, parsed
multipart form fields. -/
structure Request where
  method : String
  authHeader : Option String
  form : List (String × FormValue)

/-- `formData.get(key)`: first value bound to the key, or `null`. -/
def formDataGet : List (String × FormValue) → String → Option FormValue
  | [], _ => none
  | (k0, v) :: rest, k => if k0 = k then some v else formDataGet rest k

/-- JavaScript truthiness of a form value (`if (!file)`): a `File` object
is always truthy, a string is truthy when non-empty. -/
def jsTruthyForm : FormValue → Bool
  | FormValue.file _ _ => true
  | FormValue.str s => s ≠ ""

/-- `file.name` as rendered inside a template literal: a string form value
has no `name` property, and `undefined` renders as `"undefined"`. -/
def fvName : FormValue → String
  | FormValue.file n _ => n
  | FormValue.str _ => "undefined"

/-- `file.type`, `undefined` for a string form value. -/
def fvType : FormValue → Option String
  | FormValue.file _ t => some t
  | FormValue.str _ => none

/-- The row handed back by the database insert (`.select().single()`):
generated id and timestamp. -/
structure InsertedRow where
  id : String
  created_at : String

/-- Outcomes of the external collaborators, fixed per invocation. -/
structure Env where
  now : Nat
  authUser : Option String
  uploadOk : Bool
  aiStatus : Nat
  aiBody : Json
  insertRow : Option InsertedRow
  signedUrl : Option String

/-- External calls the handler can make, in the order it makes them.
`removeCall` is the delete entry point of the object store; it belongs to
the API surface of the store but the handler never issues it. -/
inductive Effect where
  | authCall (token : String)
  | uploadCall (key : String) (contentType : Option String) (upsert : Bool)
  | aiCall
  | insertCall (user_id : String) (image_path : String) (detections : Json)
  | removeCall (key : String)
  | signCall (key : String) (ttl : Nat)

def isAiCall : Effect → Bool
  | Effect.aiCall => true
  | _ => false

def isInsertCall : Effect → Bool
  | Effect.insertCall _ _ _ => true
  | _ => false

def isRemoveCall : Effect → Bool
  | Effect.removeCall _ => true
  | _ => false

def isUploadCall : Effect → Bool
  | Effect.uploadCall _ _ _ => true
  | _ => false

/-- Response bodies the handler produces. The success body keeps
`image_url` optional: `JSON.stringify` drops an `undefined` property.
`caughtErr` is the outer-catch body: an error object whose message text is
the host-defined message of the thrown error. -/
inductive RespBody where
  | empty
  | err (msg : String)
  | caughtErr
  | success (id : String) (image_url : Option String) (detections : Json) (created_at : String)

structure HandlerResult where
  status : Nat
  body : RespBody
  effects : List Effect

/-- `Response.ok` of the fetch API: status in `[200, 299]`. -/
def fetchOk (status : Nat) : Bool :=
  decide (200 ≤ status) && decide (status ≤ 299)

/-- Property access on a non-null JSON value: objects look keys up,
everything else yields `undefined`. -/
def jsMember (v : Json) (k : String) : Option Json :=
  match v with
  | Json.obj kvs => lookupKV kvs k
  | _ => none

/-- `v[0]` on a non-null JSON value. -/
def jsIndexZero (v : Json) : Option Json :=
  match v with
  | Json.arr xs => xs.head?
  | Json.obj kvs => lookupKV kvs "0"
  | Json.str s => (s.data.head?).map (fun c => Json.str (String.mk [c]))
  | _ => none

/-- One optional-chaining step: `null` and `undefined` short-circuit. -/
def optStep (o : Option Json) (f : Json → Option Json) : Option Json :=
  match o with
  | none => none
  | some Json.null => none
  | some v => f v

/-- `aiData.choices?.[0]?.message?.content`. The first access is not
optional: it throws when `aiData` is `null` (`Except.error`). -/
def rawContent (aiData : Json) : Except Unit (Option Json) :=
  match aiData with
  | Json.null => Except.error ()
  | v =>
    Except.ok (optStep (optStep (optStep (jsMember v "choices") jsIndexZero)
      (fun w => jsMember w "message")) (fun w => jsMember w "content"))

/-- JavaScript falsiness of a JSON value (`content || chr(91) ++ chr(93)`
substitutes on `undefined`, `null`, `false`, `0` and the empty string). -/
def jsFalsy : Json → Bool
  | Json.null => true
  | Json.bool b => !b
  | Json.num d => d.m == 0
  | Json.str s => s == ""
  | _ => false

/-- The fixed fallback detection substituted when parsing fails. -/
def fallbackDetections : Json :=
  Json.arr [Json.obj [
    ("label", Json.str "Thermal Object"),
    ("confidence", Json.num ⟨85, 2⟩),
    ("bbox", Json.obj [("x", Json.num ⟨25, 0⟩), ("y", Json.num ⟨30, 0⟩),
      ("width", Json.num ⟨40, 0⟩), ("height", Json.num ⟨35, 0⟩)]),
    ("temperature", Json.str "hot")]]

/-- Lines 141-162 of the handler: take the first-choice message content,
defaulting to the two-character string holding an empty JSON array when
falsy; extract the bracketed substring and parse it, else parse the whole
content; on any thrown error (including `.match` on a non-string receiver
and the initial access on a `null` body) substitute the fallback. -/
def parseDetections (aiData : Json) : Json :=
  match rawContent aiData with
  | Except.error _ => fallbackDetections
  | Except.ok c =>
    let content : Json := match c with
      | none => Json.str "[]"
      | some v => if jsFalsy v then Json.str "[]" else v
    match content with
    | Json.str s =>
      (match bracketMatch s with
       | some mstr =>
         (match jsonParse mstr with
          | some v => v
          | none => fallbackDetections)
       | none =>
         match jsonParse s with
         | some v => v
         | none => fallbackDetections)
    | _ => fallbackDetections

/-- The request handler, translated branch by branch from
`supabase/functions/detect-thermal/index.ts`. The object store echoes the
storage key as the returned `path` on a successful upload. The Step 5
encode (arrayBuffer read and base64 data URL) succeeds for a file-valued
field and throws for a string-valued one, where the outer catch takes
over; the encoded payload itself feeds only the AI request body, which no
property below inspects, so it is not carried in the trace. -/
def handle (env : Env) (req : Request) : HandlerResult :=
  if req.method = "OPTIONS" then
    { status := 200, body := RespBody.empty, effects := [] }
  else
    match req.authHeader with
    | none =>
      { status := 401, body := RespBody.err "Missing authorization header", effects := [] }
    | some ah =>
      let token := jsReplaceOnce ah "Bearer " ""
      let ef1 := [Effect.authCall token]
      match env.authUser with
      | none => { status := 401, body := RespBody.err "Unauthorized", effects := ef1 }
      | some uid =>
        match formDataGet req.form "image" with
        | none =>
          { status := 400, body := RespBody.err "No image file provided", effects := ef1 }
        | some fv =>
          if jsTruthyForm fv = false then
            { status := 400, body := RespBody.err "No image file provided", effects := ef1 }
          else
            let fileName := uid ++ "/" ++ toString env.now ++ "_" ++ fvName fv
            let ef2 := ef1 ++ [Effect.uploadCall fileName (fvType fv) false]
            if env.uploadOk = false then
              { status := 500, body := RespBody.err "Failed to upload image", effects := ef2 }
            else match fv with
            | FormValue.str _ =>
              -- Step 5 encode: a string form value has no arrayBuffer
              -- method, so the access throws and the outer catch answers
              -- 500 before the AI call is reached.
              { status := 500, body := RespBody.caughtErr, effects := ef2 }
            | FormValue.file _ _ =>
              let path := fileName
              let ef3 := ef2 ++ [Effect.aiCall]
              if fetchOk env.aiStatus = false then
                if env.aiStatus = 429 then
                  { status := 429,
                    body := RespBody.err "Rate limit exceeded. Please try again later.",
                    effects := ef3 }
                else if env.aiStatus = 402 then
                  { status := 402,
                    body := RespBody.err "AI credits exhausted. Please add credits to continue.",
                    effects := ef3 }
                else
                  { status := 500, body := RespBody.err "Failed to analyze image", effects := ef3 }
              else
                let detections := parseDetections env.aiBody
                let ef4 := ef3 ++ [Effect.insertCall uid path detections]
                match env.insertRow with
                | none =>
                  { status := 500, body := RespBody.err "Failed to save detection results",
                    effects := ef4 }
                | some row =>
                  let ef5 := ef4 ++ [Effect.signCall path 3600]
                  { status := 200,
                    body := RespBody.success row.id env.signedUrl detections row.created_at,
                    effects := ef5 }

/-- An AI response body whose first-choice message carries the given
content value. -/
def aiBodyWithContent (c : Json) : Json :=
  Json.obj [("choices", Json.arr [Json.obj [("message", Json.obj [("content", c)])]])]

/-- A collaborator environment in which every external call succeeds,
parameterised by the AI response body. -/
def okEnv (body : Json) : Env :=
  ⟨5, some "u1", true, 200, body, some ⟨"rid", "ts"⟩, some "su"⟩

/-- A well-formed authenticated upload request carrying a file. -/
def fileReq : Request :=
  ⟨"POST", some "Bearer tok", [("image", FormValue.file "scan.png" "image/png")]⟩

/-- An authenticated request whose image field is a plain string. -/
def strReq : Request :=
  ⟨"POST", some "Bearer tok", [("image", FormValue.str "x")]⟩

/-- The round-trip content of claim C2. -/
def c2Content : String :=
  "[\x7b\x22label\x22:\x22Car\x22,\x22confidence\x22:0.9,\x22bbox\x22:\x7b\x22x\x22:1,\x22y\x22:2,\x22width\x22:3,\x22height\x22:4\x7d,\x22temperature\x22:\x22warm\x22\x7d]"

/-- The parse of `c2Content`. -/
def c2Val : Json :=
  Json.arr [Json.obj [
    ("label", Json.str "Car"),
    ("confidence", Json.num ⟨9, 1⟩),
    ("bbox", Json.obj [("x", Json.num ⟨1, 0⟩), ("y", Json.num ⟨2, 0⟩),
      ("width", Json.num ⟨3, 0⟩), ("height", Json.num ⟨4, 0⟩)]),
    ("temperature", Json.str "warm")]]

/-- A message content that is a JSON object literal with no array. -/
def objContent : String := "\x7b\x22a\x22:1\x7d"

/-- The parse of `objContent`. -/
def objContentVal : Json := Json.obj [("a", Json.num ⟨1, 0⟩)]

end DetectThermal

namespace DetectThermal

/-- Auxiliary: the message content is present as a string value. -/
theorem rawContent_str (s : String) :
    rawContent (aiBodyWithContent (Json.str s)) = Except.ok (some (Json.str s)) := rfl

/-- Auxiliary: a missing or null first-choice content yields the empty
detection list via the substituted empty-array string. -/
theorem parseDetections_of_absent (body : Json)
    (hc : rawContent body = Except.ok none ∨ rawContent body = Except.ok (some Json.null)) :
    parseDetections body = Json.arr [] := by
  unfold parseDetections
  rcases hc with hc | hc <;> rw [hc] <;> rfl

/-- C8: a non-OPTIONS request without an Authorization header is answered
with 401 and the fixed message, before any external call is made (the
effect trace is empty). -/
theorem c8_missing_auth_header (env : Env) (m : String) (form : List (String × FormValue))
    (hm : m ≠ "OPTIONS") :
    handle env ⟨m, none, form⟩ =
      ⟨401, RespBody.err "Missing authorization header", []⟩ := by
  simp [handle, hm]

/-- Witness for C8 at a concrete request. -/
theorem c8_missing_auth_header_witness :
    handle (okEnv (Json.obj [])) ⟨"POST", none, []⟩ =
      ⟨401, RespBody.err "Missing authorization header", []⟩ :=
  c8_missing_auth_header (okEnv (Json.obj [])) "POST" [] (by decide)

/-- C4 counterexample: with a valid token and an `image` field present as
the non-empty string value `x`, the handler does not return 400: the
value is truthy, so the check is passed and the upload is performed (with
storage key suffix `undefined`); the arrayBuffer access then throws and
the outer catch answers 500. This refutes the claim that a field that
does not decode as a file is rejected with 400 before any upload. -/
theorem c4_counterexample :
    handle (okEnv (Json.obj [])) strReq =
      ⟨500, RespBody.caughtErr,
        [Effect.authCall "tok", Effect.uploadCall "u1/5_undefined" none false]⟩ ∧
    (handle (okEnv (Json.obj [])) strReq).status ≠ 400 ∧
    Effect.uploadCall "u1/5_undefined" none false ∈ (handle (okEnv (Json.obj [])) strReq).effects := by
  refine ⟨rfl, by decide, ?_⟩
  show Effect.uploadCall "u1/5_undefined" none false ∈
    [Effect.authCall "tok", Effect.uploadCall "u1/5_undefined" none false]
  exact List.mem_cons_of_mem _ (List.mem_cons_self _ _)

/-- C4 amended: for every authenticated POST request, if the `image`
field is absent or present as the empty string (a falsy value), the
handler returns 400 with the fixed message before any upload or AI call
(the only external call in the trace is the auth lookup). -/
theorem c4_amended (now : Nat) (uid a m : String) (up : Bool) (stat : Nat) (body : Json)
    (ir : Option InsertedRow) (su : Option String) (form : List (String × FormValue))
    (hm : m ≠ "OPTIONS")
    (himg : formDataGet form "image" = none ∨ formDataGet form "image" = some (FormValue.str "")) :
    handle ⟨now, some uid, up, stat, body, ir, su⟩ ⟨m, some a, form⟩ =
      ⟨400, RespBody.err "No image file provided",
        [Effect.authCall (jsReplaceOnce a "Bearer " "")]⟩ := by
  rcases himg with h | h <;> simp [handle, hm, h, jsTruthyForm]

/-- Witness for the amended C4 at a concrete request with no image field. -/
theorem c4_amended_witness :
    handle ⟨5, some "u1", true, 200, Json.obj [], some ⟨"rid", "ts"⟩, some "su"⟩
        ⟨"POST", some "Bearer tok", []⟩ =
      ⟨400, RespBody.err "No image file provided", [Effect.authCall "tok"]⟩ := by
  have h := c4_amended 5 "u1" "Bearer tok" "POST" true 200 (Json.obj [])
    (some ⟨"rid", "ts"⟩) (some "su") [] (by decide) (Or.inl rfl)
  simpa using h

/-- C9: when the AI body has no first-choice message content (or it is
null), the handler substitutes the empty-array string, so the persisted
and returned detections are the empty list — not the fallback — and the
request returns 200. -/
theorem c9_missing_content (now : Nat) (uid a m n t : String) (stat : Nat) (body : Json)
    (row : InsertedRow) (su : Option String)
    (hm : m ≠ "OPTIONS") (hs : fetchOk stat = true)
    (hc : rawContent body = Except.ok none ∨ rawContent body = Except.ok (some Json.null)) :
    handle ⟨now, some uid, true, stat, body, some row, su⟩
        ⟨m, some a, [("image", FormValue.file n t)]⟩ =
      ⟨200, RespBody.success row.id su (Json.arr []) row.created_at,
        [Effect.authCall (jsReplaceOnce a "Bearer " ""),
         Effect.uploadCall (uid ++ "/" ++ toString now ++ "_" ++ n) (some t) false,
         Effect.aiCall,
         Effect.insertCall uid (uid ++ "/" ++ toString now ++ "_" ++ n) (Json.arr []),
         Effect.signCall (uid ++ "/" ++ toString now ++ "_" ++ n) 3600]⟩ ∧
      Json.arr [] ≠ fallbackDetections := by
  refine ⟨?_, by simp [fallbackDetections]⟩
  have hd := parseDetections_of_absent body hc
  simp [handle, hm, hs, formDataGet, jsTruthyForm, fvName, fvType, hd]

/-- Witness for C9: an AI body with no `choices` member at all. -/
theorem c9_missing_content_witness :
    handle ⟨5, some "u1", true, 200, Json.obj [], some ⟨"rid", "ts"⟩, some "su"⟩
        ⟨"POST", some "Bearer tok", [("image", FormValue.file "scan.png" "image/png")]⟩ =
      ⟨200, RespBody.success "rid" (some "su") (Json.arr []) "ts",
        [Effect.authCall "tok",
         Effect.uploadCall "u1/5_scan.png" (some "image/png") false,
         Effect.aiCall,
         Effect.insertCall "u1" "u1/5_scan.png" (Json.arr []),
         Effect.signCall "u1/5_scan.png" 3600]⟩ ∧
      Json.arr [] ≠ fallbackDetections := by
  have h := c9_missing_content 5 "u1" "Bearer tok" "POST" "scan.png" "image/png" 200
    (Json.obj []) ⟨"rid", "ts"⟩ (some "su") (by decide) rfl (Or.inl rfl)
  simpa using h

/-- Auxiliary: string concatenation is associative. -/
theorem strAppendAssoc (a b c : String) : a ++ b ++ c = a ++ (b ++ c) :=
  String.append_assoc a b c

/-- C3: once an authenticated request with an image reaches the AI call,
a non-success AI status is mapped 429 to 429 with the rate-limit message,
402 to 402 with the credits message, and anything else to 500 with the
generic message; the trace contains exactly one AI call (no retry). -/
theorem c3_ai_error_mapping (now : Nat) (uid a m n t : String) (stat : Nat) (body : Json)
    (ir : Option InsertedRow) (su : Option String)
    (hm : m ≠ "OPTIONS") (hns : fetchOk stat = false) :
    handle ⟨now, some uid, true, stat, body, ir, su⟩
        ⟨m, some a, [("image", FormValue.file n t)]⟩ =
      ⟨(if stat = 429 then 429 else if stat = 402 then 402 else 500),
       RespBody.err (if stat = 429 then "Rate limit exceeded. Please try again later."
         else if stat = 402 then "AI credits exhausted. Please add credits to continue."
         else "Failed to analyze image"),
       [Effect.authCall (jsReplaceOnce a "Bearer " ""),
        Effect.uploadCall (uid ++ "/" ++ toString now ++ "_" ++ n) (some t) false,
        Effect.aiCall]⟩ ∧
    (handle ⟨now, some uid, true, stat, body, ir, su⟩
        ⟨m, some a, [("image", FormValue.file n t)]⟩).effects.countP (fun e => isAiCall e) = 1 := by
  have he : handle ⟨now, some uid, true, stat, body, ir, su⟩
      ⟨m, some a, [("image", FormValue.file n t)]⟩ =
    ⟨(if stat = 429 then 429 else if stat = 402 then 402 else 500),
     RespBody.err (if stat = 429 then "Rate limit exceeded. Please try again later."
       else if stat = 402 then "AI credits exhausted. Please add credits to continue."
       else "Failed to analyze image"),
     [Effect.authCall (jsReplaceOnce a "Bearer " ""),
      Effect.uploadCall (uid ++ "/" ++ toString now ++ "_" ++ n) (some t) false,
      Effect.aiCall]⟩ := by
    by_cases h429 : stat = 429
    · subst h429
      simp [handle, hm, hns, formDataGet, jsTruthyForm, fvName, fvType]
    · by_cases h402 : stat = 402
      · subst h402
        simp [handle, hm, hns, formDataGet, jsTruthyForm, fvName, fvType]
      · simp [handle, hm, hns, h429, h402, formDataGet, jsTruthyForm, fvName, fvType]
  refine ⟨he, ?_⟩
  rw [he]
  rfl

/-- Witness for C3 at the status 503. -/
theorem c3_ai_error_mapping_witness :
    handle ⟨5, some "u1", true, 503, Json.obj [], some ⟨"rid", "ts"⟩, some "su"⟩
        ⟨"POST", some "Bearer tok", [("image", FormValue.file "scan.png" "image/png")]⟩ =
      ⟨500, RespBody.err "Failed to analyze image",
       [Effect.authCall "tok",
        Effect.uploadCall "u1/5_scan.png" (some "image/png") false,
        Effect.aiCall]⟩ := by
  have h := c3_ai_error_mapping 5 "u1" "Bearer tok" "POST" "scan.png" "image/png" 503
    (Json.obj []) (some ⟨"rid", "ts"⟩) (some "su") (by decide) rfl
  simpa using h.1

/-- C5: every successful request uploads under the storage key
`user_id/millis_filename` with upsert disabled, and the inserted record
carries that same key as its image path, so the key prefix of the record
equals the authenticated user id by construction. -/
theorem c5_storage_key_invariant (now : Nat) (uid a m n t : String) (stat : Nat) (body : Json)
    (row : InsertedRow) (su : Option String)
    (hm : m ≠ "OPTIONS") (hs : fetchOk stat = true) :
    handle ⟨now, some uid, true, stat, body, some row, su⟩
        ⟨m, some a, [("image", FormValue.file n t)]⟩ =
      ⟨200, RespBody.success row.id su (parseDetections body) row.created_at,
        [Effect.authCall (jsReplaceOnce a "Bearer " ""),
         Effect.uploadCall (uid ++ "/" ++ toString now ++ "_" ++ n) (some t) false,
         Effect.aiCall,
         Effect.insertCall uid (uid ++ "/" ++ toString now ++ "_" ++ n) (parseDetections body),
         Effect.signCall (uid ++ "/" ++ toString now ++ "_" ++ n) 3600]⟩ ∧
    (∃ rest, uid ++ "/" ++ toString now ++ "_" ++ n = uid ++ ("/" ++ rest)) := by
  refine ⟨?_, ⟨toString now ++ ("_" ++ n), by rw [strAppendAssoc, strAppendAssoc, strAppendAssoc]⟩⟩
  simp [handle, hm, hs, formDataGet, jsTruthyForm, fvName, fvType]

/-- Witness for C5 at a concrete successful request. -/
theorem c5_storage_key_invariant_witness :
    handle ⟨5, some "u1", true, 200, Json.obj [], some ⟨"rid", "ts"⟩, some "su"⟩
        ⟨"POST", some "Bearer tok", [("image", FormValue.file "scan.png" "image/png")]⟩ =
      ⟨200, RespBody.success "rid" (some "su") (Json.arr []) "ts",
        [Effect.authCall "tok",
         Effect.uploadCall "u1/5_scan.png" (some "image/png") false,
         Effect.aiCall,
         Effect.insertCall "u1" "u1/5_scan.png" (Json.arr []),
         Effect.signCall "u1/5_scan.png" 3600]⟩ ∧
    (∃ rest, ("u1/5_scan.png" : String) = "u1" ++ ("/" ++ rest)) := by
  have h := c5_storage_key_invariant 5 "u1" "Bearer tok" "POST" "scan.png" "image/png" 200
    (Json.obj []) ⟨"rid", "ts"⟩ (some "su") (by decide) rfl
  exact ⟨by simpa using h.1, ⟨"5_scan.png", by decide⟩⟩

/-- C6: when the database insert fails, the handler answers 500 with the
fixed message; the earlier upload stays in the trace, no remove call is
ever issued (no rollback), and the insert is attempted exactly once. -/
theorem c6_db_failure_no_rollback (now : Nat) (uid a m n t : String) (stat : Nat) (body : Json)
    (su : Option String)
    (hm : m ≠ "OPTIONS") (hs : fetchOk stat = true) :
    handle ⟨now, some uid, true, stat, body, none, su⟩
        ⟨m, some a, [("image", FormValue.file n t)]⟩ =
      ⟨500, RespBody.err "Failed to save detection results",
        [Effect.authCall (jsReplaceOnce a "Bearer " ""),
         Effect.uploadCall (uid ++ "/" ++ toString now ++ "_" ++ n) (some t) false,
         Effect.aiCall,
         Effect.insertCall uid (uid ++ "/" ++ toString now ++ "_" ++ n) (parseDetections body)]⟩ ∧
    Effect.uploadCall (uid ++ "/" ++ toString now ++ "_" ++ n) (some t) false ∈
      (handle ⟨now, some uid, true, stat, body, none, su⟩
        ⟨m, some a, [("image", FormValue.file n t)]⟩).effects ∧
    (handle ⟨now, some uid, true, stat, body, none, su⟩
        ⟨m, some a, [("image", FormValue.file n t)]⟩).effects.countP (fun e => isRemoveCall e) = 0 ∧
    (handle ⟨now, some uid, true, stat, body, none, su⟩
        ⟨m, some a, [("image", FormValue.file n t)]⟩).effects.countP (fun e => isInsertCall e) = 1 := by
  have he : handle ⟨now, some uid, true, stat, body, none, su⟩
      ⟨m, some a, [("image", FormValue.file n t)]⟩ =
    ⟨500, RespBody.err "Failed to save detection results",
      [Effect.authCall (jsReplaceOnce a "Bearer " ""),
       Effect.uploadCall (uid ++ "/" ++ toString now ++ "_" ++ n) (some t) false,
       Effect.aiCall,
       Effect.insertCall uid (uid ++ "/" ++ toString now ++ "_" ++ n) (parseDetections body)]⟩ := by
    simp [handle, hm, hs, formDataGet, jsTruthyForm, fvName, fvType]
  refine ⟨he, ?_, ?_, ?_⟩ <;> rw [he]
  · exact List.mem_cons_of_mem _ (List.mem_cons_self _ _)
  · rfl
  · rfl

/-- Witness for C6 at a concrete request with a failing insert. -/
theorem c6_db_failure_no_rollback_witness :
    handle ⟨5, some "u1", true, 200, Json.obj [], none, some "su"⟩
        ⟨"POST", some "Bearer tok", [("image", FormValue.file "scan.png" "image/png")]⟩ =
      ⟨500, RespBody.err "Failed to save detection results",
        [Effect.authCall "tok",
         Effect.uploadCall "u1/5_scan.png" (some "image/png") false,
         Effect.aiCall,
         Effect.insertCall "u1" "u1/5_scan.png" (Json.arr [])]⟩ := by
  have h := c6_db_failure_no_rollback 5 "u1" "Bearer tok" "POST" "scan.png" "image/png" 200
    (Json.obj []) (some "su") (by decide) rfl
  simpa using h.1

/-- C7: a failed signed-URL generation is not fatal: with every earlier
step successful and the signing collaborator returning nothing, the
handler still answers 200 with id, detections and created_at present and
the image_url field absent. -/
theorem c7_sign_failure_nonfatal (now : Nat) (uid a m n t : String) (stat : Nat) (body : Json)
    (row : InsertedRow)
    (hm : m ≠ "OPTIONS") (hs : fetchOk stat = true) :
    handle ⟨now, some uid, true, stat, body, some row, none⟩
        ⟨m, some a, [("image", FormValue.file n t)]⟩ =
      ⟨200, RespBody.success row.id none (parseDetections body) row.created_at,
        [Effect.authCall (jsReplaceOnce a "Bearer " ""),
         Effect.uploadCall (uid ++ "/" ++ toString now ++ "_" ++ n) (some t) false,
         Effect.aiCall,
         Effect.insertCall uid (uid ++ "/" ++ toString now ++ "_" ++ n) (parseDetections body),
         Effect.signCall (uid ++ "/" ++ toString now ++ "_" ++ n) 3600]⟩ := by
  simp [handle, hm, hs, formDataGet, jsTruthyForm, fvName, fvType]

/-- Witness for C7 at a concrete request with failing URL signing. -/
theorem c7_sign_failure_nonfatal_witness :
    handle ⟨5, some "u1", true, 200, Json.obj [], some ⟨"rid", "ts"⟩, none⟩
        ⟨"POST", some "Bearer tok", [("image", FormValue.file "scan.png" "image/png")]⟩ =
      ⟨200, RespBody.success "rid" none (Json.arr []) "ts",
        [Effect.authCall "tok",
         Effect.uploadCall "u1/5_scan.png" (some "image/png") false,
         Effect.aiCall,
         Effect.insertCall "u1" "u1/5_scan.png" (Json.arr []),
         Effect.signCall "u1/5_scan.png" 3600]⟩ := by
  have h := c7_sign_failure_nonfatal 5 "u1" "Bearer tok" "POST" "scan.png" "image/png" 200
    (Json.obj []) ⟨"rid", "ts"⟩ (by decide) rfl
  simpa using h

/-- Auxiliary: the C2 content parses to `c2Val` through the bracket
extraction. -/
theorem parseDetections_c2 : parseDetections (aiBodyWithContent (Json.str c2Content)) = c2Val := by
  rfl

/-- C2: with the well-formed single-detection content of the claim, the
value inserted into the database and the detections field of the 200
response body are both exactly the parsed array. -/
theorem c2_roundtrip (now : Nat) (uid a m n t : String) (stat : Nat)
    (row : InsertedRow) (su : Option String)
    (hm : m ≠ "OPTIONS") (hs : fetchOk stat = true) :
    handle ⟨now, some uid, true, stat, aiBodyWithContent (Json.str c2Content), some row, su⟩
        ⟨m, some a, [("image", FormValue.file n t)]⟩ =
      ⟨200, RespBody.success row.id su c2Val row.created_at,
        [Effect.authCall (jsReplaceOnce a "Bearer " ""),
         Effect.uploadCall (uid ++ "/" ++ toString now ++ "_" ++ n) (some t) false,
         Effect.aiCall,
         Effect.insertCall uid (uid ++ "/" ++ toString now ++ "_" ++ n) c2Val,
         Effect.signCall (uid ++ "/" ++ toString now ++ "_" ++ n) 3600]⟩ := by
  simp [handle, hm, hs, formDataGet, jsTruthyForm, fvName, fvType, parseDetections_c2]

/-- Witness for C2 at a concrete request. -/
theorem c2_roundtrip_witness :
    handle ⟨5, some "u1", true, 200, aiBodyWithContent (Json.str c2Content), some ⟨"rid", "ts"⟩, some "su"⟩
        ⟨"POST", some "Bearer tok", [("image", FormValue.file "scan.png" "image/png")]⟩ =
      ⟨200, RespBody.success "rid" (some "su") c2Val "ts",
        [Effect.authCall "tok",
         Effect.uploadCall "u1/5_scan.png" (some "image/png") false,
         Effect.aiCall,
         Effect.insertCall "u1" "u1/5_scan.png" c2Val,
         Effect.signCall "u1/5_scan.png" 3600]⟩ := by
  have h := c2_roundtrip 5 "u1" "Bearer tok" "POST" "scan.png" "image/png" 200
    ⟨"rid", "ts"⟩ (some "su") (by decide) rfl
  simpa using h

/-- Auxiliary: a non-empty string content with no bracketed substring that
itself parses as JSON is taken whole through the else branch. -/
theorem parseDetections_of_noBracket (body : Json) (s : String) (v : Json)
    (hc : rawContent body = Except.ok (some (Json.str s))) (hne : s ≠ "")
    (hb : bracketMatch s = none) (hp : jsonParse s = some v) :
    parseDetections body = v := by
  unfold parseDetections
  rw [hc]
  have hf : jsFalsy (Json.str s) = false := by simp [jsFalsy, hne]
  simp [hf, hb, hp]

/-- C10: the handler does not guarantee that the persisted detections
value is a list: a content with no bracketed substring that itself parses
as JSON is persisted and returned as parsed, with status 200, and the
fallback is not applied. -/
theorem c10_nonarray_persisted (now : Nat) (uid a m n t s : String) (v : Json) (stat : Nat)
    (body : Json) (row : InsertedRow) (su : Option String)
    (hm : m ≠ "OPTIONS") (hs : fetchOk stat = true)
    (hc : rawContent body = Except.ok (some (Json.str s))) (hne : s ≠ "")
    (hb : bracketMatch s = none) (hp : jsonParse s = some v) :
    handle ⟨now, some uid, true, stat, body, some row, su⟩
        ⟨m, some a, [("image", FormValue.file n t)]⟩ =
      ⟨200, RespBody.success row.id su v row.created_at,
        [Effect.authCall (jsReplaceOnce a "Bearer " ""),
         Effect.uploadCall (uid ++ "/" ++ toString now ++ "_" ++ n) (some t) false,
         Effect.aiCall,
         Effect.insertCall uid (uid ++ "/" ++ toString now ++ "_" ++ n) v,
         Effect.signCall (uid ++ "/" ++ toString now ++ "_" ++ n) 3600]⟩ := by
  have hd := parseDetections_of_noBracket body s v hc hne hb hp
  simp [handle, hm, hs, formDataGet, jsTruthyForm, fvName, fvType, hd]

/-- Witness for C10: the object-literal content is persisted as a JSON
object, not a list, and differs from the fallback. -/
theorem c10_nonarray_persisted_witness :
    (handle ⟨5, some "u1", true, 200, aiBodyWithContent (Json.str objContent), some ⟨"rid", "ts"⟩, some "su"⟩
        ⟨"POST", some "Bearer tok", [("image", FormValue.file "scan.png" "image/png")]⟩ =
      ⟨200, RespBody.success "rid" (some "su") objContentVal "ts",
        [Effect.authCall "tok",
         Effect.uploadCall "u1/5_scan.png" (some "image/png") false,
         Effect.aiCall,
         Effect.insertCall "u1" "u1/5_scan.png" objContentVal,
         Effect.signCall "u1/5_scan.png" 3600]⟩) ∧
    (∀ l : List Json, objContentVal ≠ Json.arr l) ∧
    objContentVal ≠ fallbackDetections := by
  refine ⟨?_, fun l h => Json.noConfusion h, fun h => by simp [objContentVal, fallbackDetections] at h⟩
  have h := c10_nonarray_persisted 5 "u1" "Bearer tok" "POST" "scan.png" "image/png"
    objContent objContentVal 200 (aiBodyWithContent (Json.str objContent)) ⟨"rid", "ts"⟩
    (some "su") (by decide) rfl (rawContent_str objContent) (by decide) (by rfl) (by rfl)
  simpa using h

/-- Auxiliary: a parse in string mode only produces a string value. -/
theorem parseStep_instr_str : ∀ (n : Nat) (acc cs : List Char) (v : Json) (r : List Char),
    parseStep n (PMode.instr acc) cs = some (v, r) → ∃ u, v = Json.str u := by
  intro n
  induction n with
  | zero => intro acc cs v r h; simp [parseStep] at h
  | succ n ih =>
    intro acc cs v r h
    simp only [parseStep] at h
    repeat' split at h
    all_goals first
      | (exact ih _ _ _ _ h)
      | (injection h with hx; injection hx with hv hr; exact ⟨_, hv.symm⟩)
      | injection h

/-- Auxiliary: a parse in object-members mode only produces an object. -/
theorem parseStep_membs_obj : ∀ (n : Nat) (acc : List (String × Json)) (cs : List Char)
    (v : Json) (r : List Char),
    parseStep n (PMode.membs acc) cs = some (v, r) → ∃ kvs, v = Json.obj kvs := by
  intro n
  induction n with
  | zero => intro acc cs v r h; simp [parseStep] at h
  | succ n ih =>
    intro acc cs v r h
    simp only [parseStep] at h
    repeat' split at h
    all_goals first
      | (exact ih _ _ _ _ h)
      | (injection h with hx; injection hx with hv hr; exact ⟨_, hv.symm⟩)
      | injection h

/-- Auxiliary: a parse in array-elements mode only produces an array. -/
theorem parseStep_elems_arr : ∀ (n : Nat) (acc : List Json) (cs : List Char)
    (v : Json) (r : List Char),
    parseStep n (PMode.elems acc) cs = some (v, r) → ∃ d, v = Json.arr d := by
  intro n
  induction n with
  | zero => intro acc cs v r h; simp [parseStep] at h
  | succ n ih =>
    intro acc cs v r h
    simp only [parseStep] at h
    repeat' split at h
    all_goals first
      | (exact ih _ _ _ _ h)
      | (injection h with hx; injection hx with hv hr; exact ⟨_, hv.symm⟩)
      | injection h

/-- Auxiliary: a value parse that yields an array started at an opening
square bracket. -/
theorem parseStep_val_arr_head : ∀ (n : Nat) (cs : List Char) (d : List Json) (r : List Char),
    parseStep n PMode.val cs = some (Json.arr d, r) → ∃ t, cs = '[' :: t := by
  intro n cs d r h
  cases n with
  | zero => simp [parseStep] at h
  | succ n =>
    cases cs with
    | nil => simp [parseStep] at h
    | cons c r0 =>
      simp only [parseStep] at h
      by_cases hb1 : c = '{'
      · rw [if_pos hb1] at h
        split at h
        · injection h
        · split at h
          · injection h with hx; injection hx with hv hr; exact Json.noConfusion hv
          · obtain ⟨kvs, hk⟩ := parseStep_membs_obj _ _ _ _ _ h
            exact Json.noConfusion hk
      rw [if_neg hb1] at h
      by_cases hb2 : c = '['
      · exact ⟨r0, by rw [hb2]⟩
      rw [if_neg hb2] at h
      by_cases hb3 : c = '"'
      · rw [if_pos hb3] at h
        obtain ⟨u, hu⟩ := parseStep_instr_str _ _ _ _ _ h
        exact Json.noConfusion hu
      rw [if_neg hb3] at h
      by_cases hb4 : c = 't'
      · rw [if_pos hb4] at h
        split at h
        · injection h with hx; injection hx with hv hr; exact Json.noConfusion hv
        · injection h
      rw [if_neg hb4] at h
      by_cases hb5 : c = 'f'
      · rw [if_pos hb5] at h
        split at h
        · injection h with hx; injection hx with hv hr; exact Json.noConfusion hv
        · injection h
      rw [if_neg hb5] at h
      by_cases hb6 : c = 'n'
      · rw [if_pos hb6] at h
        split at h
        · injection h with hx; injection hx with hv hr; exact Json.noConfusion hv
        · injection h
      rw [if_neg hb6] at h
      split at h
      · injection h with hx; injection hx with hv hr; exact Json.noConfusion hv
      · injection h

/-- Auxiliary: a value parse that starts at an opening square bracket only
yields an array. -/
theorem parseStep_val_lbrack : ∀ (n : Nat) (t : List Char) (v : Json) (r : List Char),
    parseStep n PMode.val ('[' :: t) = some (v, r) → ∃ d, v = Json.arr d := by
  intro n t v r h
  cases n with
  | zero => simp [parseStep] at h
  | succ n =>
    simp only [parseStep] at h
    rw [if_neg (by decide : ¬('[' : Char) = '{'), if_true] at h
    split at h
    · injection h
    · split at h
      · injection h with hx; injection hx with hv hr; exact ⟨[], hv.symm⟩
      · exact parseStep_elems_arr _ _ _ _ _ h

theorem skipWs_lbrack (t : List Char) : skipWs ('[' :: t) = '[' :: t := rfl

/-- Auxiliary: a whole-string parse of a string whose characters start at
an opening square bracket only yields an array. -/
theorem jsonParse_lbrack_arr (mstr : String) (t : List Char) (v : Json)
    (hd : mstr.data = '[' :: t) (hp : jsonParse mstr = some v) : ∃ d, v = Json.arr d := by
  unfold jsonParse at hp
  rw [hd, skipWs_lbrack] at hp
  split at hp
  · rename_i v0 r0 heq
    split at hp
    · injection hp with hv
      obtain ⟨d, hd0⟩ := parseStep_val_lbrack _ _ _ _ heq
      exact ⟨d, by rw [← hv, hd0]⟩
    · injection hp
  · injection hp

/-- Auxiliary: if a whole string parses as a JSON array then it contains
an opening square bracket. -/
theorem jsonParse_arr_lbrack_mem (s : String) (d : List Json)
    (hp : jsonParse s = some (Json.arr d)) : '[' ∈ s.data := by
  unfold jsonParse at hp
  split at hp
  · rename_i v0 r0 heq
    split at hp
    · injection hp with hv
      rw [hv] at heq
      obtain ⟨t, ht⟩ := parseStep_val_arr_head _ _ _ _ heq
      have hmem : '[' ∈ skipWs s.data := by rw [ht]; exact List.mem_cons_self _ _
      exact (List.dropWhile_sublist _).subset hmem
    · injection hp
  · injection hp

/-- Auxiliary: a string without an opening square bracket has no infix
that parses as a JSON array. -/
theorem noArrOfNoLbrack (s : String) (hnb : '[' ∉ s.data) :
    ∀ l : List Char, l <:+: s.data → ∀ d : List Json,
      jsonParse (String.mk l) ≠ some (Json.arr d) := by
  intro l hl d hp
  exact hnb (hl.subset (jsonParse_arr_lbrack_mem (String.mk l) d hp))

/-- Auxiliary: the first index of a character points at it. -/
theorem firstIdx_drop : ∀ (cs : List Char) (c : Char) (i : Nat),
    firstIdx c cs = some i → ∃ t, cs.drop i = c :: t := by
  intro cs
  induction cs with
  | nil => intro c i h; simp [firstIdx] at h
  | cons x xs ih =>
    intro c i h
    simp only [firstIdx] at h
    split at h
    · rename_i hx
      injection h with hi
      exact ⟨xs, by rw [← hi]; simp [hx]⟩
    · rcases hmap : firstIdx c xs with _ | i0
      · rw [hmap] at h; simp at h
      · rw [hmap] at h
        simp at h
        obtain ⟨t, ht⟩ := ih c i0 hmap
        exact ⟨t, by rw [show i = i0 + 1 by omega]; simpa using ht⟩

/-- Auxiliary: the extracted bracket match is an infix of the content and
starts with an opening square bracket. -/
theorem bracketMatch_spec (s mstr : String) (h : bracketMatch s = some mstr) :
    mstr.data <:+: s.data ∧ ∃ t, mstr.data = '[' :: t := by
  unfold bracketMatch at h
  split at h
  · rename_i i j hf hl
    split at h
    · injection h with hm
      constructor
      · rw [← hm]
        exact ((List.take_prefix _ _).isInfix.trans (List.drop_suffix _ _).isInfix)
      · obtain ⟨t0, ht0⟩ := firstIdx_drop s.data '[' i hf
        refine ⟨t0.take (j - i), ?_⟩
        rw [← hm]
        show ((s.data.drop i).take (j - i + 1)) = _
        rw [ht0, List.take_succ_cons]
    · injection h
  · injection h

/-- Auxiliary: when the content is a non-empty string with no infix
parsing as a JSON array and itself unparseable, the fallback is used. -/
theorem parseDetections_fallback (body : Json) (s : String)
    (hc : rawContent body = Except.ok (some (Json.str s))) (hne : s ≠ "")
    (h1 : ∀ l : List Char, l <:+: s.data → ∀ d : List Json,
      jsonParse (String.mk l) ≠ some (Json.arr d))
    (h2 : jsonParse s = none) :
    parseDetections body = fallbackDetections := by
  have hf : jsFalsy (Json.str s) = false := by simp [jsFalsy, hne]
  cases hb : bracketMatch s with
  | none => simp [parseDetections, hc, hf, hb, h2]
  | some mstr =>
    obtain ⟨hinf, t, ht⟩ := bracketMatch_spec s mstr hb
    cases hp : jsonParse mstr with
    | none => simp [parseDetections, hc, hf, hb, hp]
    | some v =>
      obtain ⟨d, hd⟩ := jsonParse_lbrack_arr mstr t v ht hp
      rw [hd] at hp
      exact absurd hp (h1 mstr.data hinf d)

/-- C1 counterexample: a message content that is a JSON object literal
contains no parseable JSON array, yet the handler persists and returns the
parsed object with status 200 — not the fixed fallback array. -/
theorem c1_counterexample :
    (handle (okEnv (aiBodyWithContent (Json.str objContent))) fileReq).status = 200 ∧
    (handle (okEnv (aiBodyWithContent (Json.str objContent))) fileReq).body =
      RespBody.success "rid" (some "su") objContentVal "ts" ∧
    objContentVal ≠ fallbackDetections ∧
    (∀ l : List Char, l <:+: objContent.data → ∀ d : List Json,
      jsonParse (String.mk l) ≠ some (Json.arr d)) := by
  exact ⟨rfl, rfl, fun h => by simp [objContentVal, fallbackDetections] at h,
    noArrOfNoLbrack _ (by decide)⟩

/-- C1 amended: for every AI response whose message content is a
non-empty string that contains no parseable JSON array and does not
itself parse as JSON, the persisted and returned detection list is
exactly the fixed fallback array and the request returns 200. -/
theorem c1_fallback_on_unparseable (now : Nat) (uid a m n t s : String) (stat : Nat)
    (body : Json) (row : InsertedRow) (su : Option String)
    (hm : m ≠ "OPTIONS") (hs : fetchOk stat = true)
    (hc : rawContent body = Except.ok (some (Json.str s))) (hne : s ≠ "")
    (h1 : ∀ l : List Char, l <:+: s.data → ∀ d : List Json,
      jsonParse (String.mk l) ≠ some (Json.arr d))
    (h2 : jsonParse s = none) :
    handle ⟨now, some uid, true, stat, body, some row, su⟩
        ⟨m, some a, [("image", FormValue.file n t)]⟩ =
      ⟨200, RespBody.success row.id su fallbackDetections row.created_at,
        [Effect.authCall (jsReplaceOnce a "Bearer " ""),
         Effect.uploadCall (uid ++ "/" ++ toString now ++ "_" ++ n) (some t) false,
         Effect.aiCall,
         Effect.insertCall uid (uid ++ "/" ++ toString now ++ "_" ++ n) fallbackDetections,
         Effect.signCall (uid ++ "/" ++ toString now ++ "_" ++ n) 3600]⟩ := by
  have hd := parseDetections_fallback body s hc hne h1 h2
  simp [handle, hm, hs, formDataGet, jsTruthyForm, fvName, fvType, hd]

/-- Witness for the amended C1: prose content with no brackets and no
JSON value in it yields the fallback array with status 200. -/
theorem c1_fallback_on_unparseable_witness :
    handle ⟨5, some "u1", true, 200, aiBodyWithContent (Json.str "no json here"),
        some ⟨"rid", "ts"⟩, some "su"⟩
      ⟨"POST", some "Bearer tok", [("image", FormValue.file "scan.png" "image/png")]⟩ =
      ⟨200, RespBody.success "rid" (some "su") fallbackDetections "ts",
        [Effect.authCall "tok",
         Effect.uploadCall "u1/5_scan.png" (some "image/png") false,
         Effect.aiCall,
         Effect.insertCall "u1" "u1/5_scan.png" fallbackDetections,
         Effect.signCall "u1/5_scan.png" 3600]⟩ := by
  have h := c1_fallback_on_unparseable 5 "u1" "Bearer tok" "POST" "scan.png" "image/png"
    "no json here" 200 (aiBodyWithContent (Json.str "no json here")) ⟨"rid", "ts"⟩ (some "su")
    (by decide) rfl (rawContent_str "no json here") (by decide)
    (noArrOfNoLbrack "no json here" (by decide)) (by rfl)
  simpa using h

end DetectThermal
